import Mathlib

/-!
Shallow embedding of the remote transpilation submit-and-poll client
`IBMQTranspilerService.run` (src/qiskit/providers/ibmq/api/rest/validation.py)
and of the credential-store routine `store_credentials`
(src/qiskit/providers/ibmq/credentials/configrc.py).

The poll loop is modelled under a mocked clock: `time.time() - start_time`
equals the sum of the `time.sleep(wait)` calls performed so far, and the
network calls themselves take no time.  The HTTP collaborator
`self._api.transpiler_service_result` is modelled as an oracle mapping the
index of the GET attempt to its behaviour (a payload, a `None` return, or a
raised exception).  Python's unbounded `while` loop is modelled with a fuel
parameter: a `none` result means the loop is still running after `fuel`
iterations.
-/

namespace IBMQPoll

/-- A network call issued by `IBMQTranspilerService.run`: the submission POST
to the upload url (`transpiler_service_submit`), or a result GET against the
download url (`transpiler_service_result`). -/
inductive NetCall where
  | submit (url : String)
  | get (url : String)
deriving DecidableEq

/-- Behaviour of one call to `self._api.transpiler_service_result`: it returns
a payload, returns `None` (which keeps the `while` condition true), or raises
an exception whose description is `e` (for example a JSON decode error or an
HTTP error status). -/
inductive PollResponse (π : Type) where
  | ready (payload : π)
  | noneResp
  | exn (e : String)
deriving DecidableEq

/-- How the `while serverless_transpiler_response is None` loop exits: by the
`raise UserTimeoutExceededError(...)` statement, or with a response. -/
inductive LoopExit (π : Type) where
  | timedOut (msg : String)
  | got (payload : π)
deriving DecidableEq

/-- The value produced by `run`: the raised timeout error, or the return value
`circuits[0] if len(circuits) == 1 else circuits` (a single circuit when the
disassembled list has exactly one element, otherwise the whole list). -/
inductive RunResult (κ : Type) where
  | timeoutErr (msg : String)
  | single (c : κ)
  | multiple (cs : List κ)
deriving DecidableEq

/-- The message of the raised `UserTimeoutExceededError`, copied verbatim from
validation.py line 132: a constant string whose format placeholder is never
filled in (there is no `.format(...)` call), so the elapsed duration does not
appear in the error. -/
def timeoutMessage : String := "Timeout while waiting circuit trasnpilation \x7b\x7d"

/-- The guard `timeout is not None and elapsed_time >= timeout`
(validation.py line 131). -/
def timeoutReached (timeout : Option Int) (elapsed : Int) : Bool :=
  match timeout with
  | some t => decide (t ≤ elapsed)
  | none => false

/-- The return expression `circuits[0] if len(circuits) == 1 else circuits`
(validation.py line 140); a list has length 1 exactly when it is `[c]`. -/
def unwrap {κ : Type} (circuits : List κ) : RunResult κ :=
  match circuits with
  | [c] => .single c
  | cs => .multiple cs

/-- The list of computation descriptions carried by a successful `RunResult`
(`none` when the run raised instead of returning). -/
def resultCircuits {κ : Type} : RunResult κ → Option (List κ)
  | .timeoutErr _ => none
  | .single c => some [c]
  | .multiple cs => some cs

/-- The `while serverless_transpiler_response is None` loop of
`IBMQTranspilerService.run` (validation.py lines 129-137) under the mocked
clock.  Each iteration checks the timeout guard with the current elapsed time,
raises when it fires, otherwise sleeps `wait` (advancing the clock), then
issues one GET; a payload ends the loop, while a `None` return or any raised
exception (`except Exception: pass`) is ignored and the loop continues.
The result collects the trace of GET calls, the elapsed time at exit, and the
exit kind; `none` means the fuel ran out with the loop still going. -/
def pollLoop {π : Type} (oracle : Nat → PollResponse π) (download_url : String)
    (wait : Nat) (timeout : Option Int) :
    Nat → Int → Nat → Option (List NetCall × Int × LoopExit π)
  | 0, _, _ => none
  | fuel + 1, elapsed, attempts =>
    if timeoutReached timeout elapsed then
      some ([], elapsed, .timedOut timeoutMessage)
    else
      -- time.sleep(wait): the mocked clock advances by `wait`.
      let elapsedAfterSleep := elapsed + (wait : Int)
      match oracle attempts with
      | .ready p => some ([.get download_url], elapsedAfterSleep, .got p)
      | .noneResp =>
          (pollLoop oracle download_url wait timeout fuel elapsedAfterSleep
              (attempts + 1)).map
            (fun r => (NetCall.get download_url :: r.1, r.2))
      | .exn _ =>
          (pollLoop oracle download_url wait timeout fuel elapsedAfterSleep
              (attempts + 1)).map
            (fun r => (NetCall.get download_url :: r.1, r.2))

/-- The transpiler-service client of validation.py lines 97-109: the endpoint
pair bound at construction, together with its collaborators — the `_api`
client (whose `transpiler_service_result` behaviour is the oracle `api`) and
qiskit's `disassemble`, which maps a payload to a triple whose first component
is the list of circuits (the other two components are discarded by `run`). -/
structure IBMQTranspilerService (π κ ρ η : Type) where
  upload_url : String
  download_url : String
  api : Nat → PollResponse π
  disassemble : π → List κ × ρ × η

/-- The method `IBMQTranspilerService.run` (validation.py lines 111-140): one
submission POST to the upload url (its acknowledgement is discarded, `_ =`),
then the poll loop against the download url, then
`circuits, _, _ = disassemble(response)` and the unwrapping return.  The
output is the trace of network calls, the elapsed time at exit, and the
result; `none` means the loop was still running when the fuel ran out. -/
def IBMQTranspilerService.run {π κ ρ η : Type} (s : IBMQTranspilerService π κ ρ η)
    (wait : Nat) (timeout : Option Int) (fuel : Nat) :
    Option (List NetCall × Int × RunResult κ) :=
  match pollLoop s.api s.download_url wait timeout fuel 0 0 with
  | none => none
  | some (tr, e, .timedOut msg) => some (.submit s.upload_url :: tr, e, .timeoutErr msg)
  | some (tr, e, .got p) =>
      -- circuits, _, _ = disassemble(serverless_transpiler_response)
      some (.submit s.upload_url :: tr, e, unwrap (s.disassemble p).1)

end IBMQPoll

namespace Configrc

/-- Membership test `credentials.unique_id() in stored_credentials` on the
dictionary returned by `read_credentials_from_qiskitrc`, modelled as an
association list from unique id to credentials. -/
def dictContains {ι χ : Type} [DecidableEq ι] (d : List (ι × χ)) (k : ι) : Bool :=
  d.any (fun kv => decide (kv.1 = k))

/-- The dictionary assignment `stored_credentials[key] = value`: replace the
value when the key is present, otherwise append the new entry. -/
def dictSet {ι χ : Type} [DecidableEq ι] (d : List (ι × χ)) (k : ι) (v : χ) :
    List (ι × χ) :=
  if dictContains d k then
    d.map (fun kv => if kv.1 = k then (k, v) else kv)
  else
    d ++ [(k, v)]

/-- The call `stored_credentials.clear()` (configrc.py line 198). -/
def dictClear {ι χ : Type} (_ : List (ι × χ)) : List (ι × χ) := []

/-- The function `store_credentials` (configrc.py lines 173-200) on the mocked
file state.  Input `stored_credentials` is the dictionary read from the
configuration file; `uid` is the collaborator `Credentials.unique_id`.  The
output is the dictionary handed to `write_qiskit_rc` (which rewrites the whole
file from it, one section per entry), or `none` when the function returns
early without writing because the id is already stored and `overwrite` is
false. -/
def store_credentials {ι χ : Type} [DecidableEq ι] (uid : χ → ι)
    (stored_credentials : List (ι × χ)) (credentials : χ) (overwrite : Bool) :
    Option (List (ι × χ)) :=
  if dictContains stored_credentials (uid credentials) && !overwrite then
    -- logger.warning(...); return
    none
  else
    -- stored_credentials.clear(); stored_credentials[unique_id] = credentials
    some (dictSet (dictClear stored_credentials) (uid credentials) credentials)

end Configrc

namespace IBMQPoll

/-- Helper: `resultCircuits` recovers the full circuit list from the
unwrapping performed at validation.py line 140. -/
lemma resultCircuits_unwrap {κ : Type} (cs : List κ) :
    resultCircuits (unwrap cs) = some cs := by
  match cs with
  | [] => rfl
  | [c] => rfl
  | a :: b :: t => rfl

/-- Helper: when the list does not have exactly one element, the return
expression of line 140 yields the whole list. -/
lemma unwrap_eq_multiple {κ : Type} (cs : List κ) (h : cs.length ≠ 1) :
    unwrap cs = .multiple cs := by
  match cs with
  | [] => rfl
  | [c] => simp at h
  | a :: b :: t => rfl

/-- Helper: the timeout guard does not fire at elapsed time zero when the
timeout is absent or positive. -/
lemma timeoutReached_zero {timeout : Option Int}
    (ht : ∀ t, timeout = some t → 0 < t) :
    timeoutReached timeout 0 = false := by
  cases timeout with
  | none => rfl
  | some t =>
    simp only [timeoutReached, decide_eq_false_iff_not, not_le]
    exact ht t rfl

/-- Helper: when the first GET already returns a payload and the timeout guard
does not fire at elapsed time zero, `run` performs exactly the submission and
one GET, exiting at elapsed time `wait`. -/
lemma run_first_ready {π κ ρ η : Type} (s : IBMQTranspilerService π κ ρ η)
    (p : π) (wait : Nat) (timeout : Option Int) (m : Nat)
    (h0 : s.api 0 = .ready p) (ht : timeoutReached timeout 0 = false) :
    s.run wait timeout (m + 1) =
      some ([.submit s.upload_url, .get s.download_url], (wait : Int),
        unwrap (s.disassemble p).1) := by
  unfold IBMQTranspilerService.run
  rw [pollLoop, ht]
  simp only [Bool.false_eq_true, if_false, h0, Int.zero_add]

/-- Helper: every network call recorded by the poll loop is a GET against the
download url. -/
lemma pollLoop_trace_gets {π : Type} (oracle : Nat → PollResponse π) (d : String)
    (wait : Nat) (timeout : Option Int) :
    ∀ fuel (elapsed : Int) (attempts : Nat) tr e ex,
      pollLoop oracle d wait timeout fuel elapsed attempts = some (tr, e, ex) →
      ∀ c ∈ tr, c = NetCall.get d := by
  intro fuel
  induction fuel with
  | zero =>
    intro elapsed attempts tr e ex h
    exact absurd h (by simp [pollLoop])
  | succ n ih =>
    intro elapsed attempts tr e ex h c hc
    rw [pollLoop] at h
    split at h
    · simp only [Option.some.injEq, Prod.mk.injEq] at h
      obtain ⟨h1, -, -⟩ := h
      subst h1
      simp at hc
    · cases ho : oracle attempts with
      | ready p =>
        rw [ho] at h
        dsimp only at h
        simp only [Option.some.injEq, Prod.mk.injEq] at h
        obtain ⟨h1, -, -⟩ := h
        subst h1
        simpa using hc
      | noneResp =>
        rw [ho] at h
        dsimp only at h
        cases hrec : pollLoop oracle d wait timeout n (elapsed + (wait : Int))
            (attempts + 1) with
        | none => rw [hrec] at h; simp at h
        | some r =>
          obtain ⟨tr0, e0, ex0⟩ := r
          rw [hrec] at h
          simp only [Option.map_some', Option.some.injEq, Prod.mk.injEq] at h
          obtain ⟨h1, -, -⟩ := h
          subst h1
          rcases List.mem_cons.mp hc with rfl | hc0
          · rfl
          · exact ih _ _ _ _ _ hrec c hc0
      | exn e0 =>
        rw [ho] at h
        dsimp only at h
        cases hrec : pollLoop oracle d wait timeout n (elapsed + (wait : Int))
            (attempts + 1) with
        | none => rw [hrec] at h; simp at h
        | some r =>
          obtain ⟨tr0, e0, ex0⟩ := r
          rw [hrec] at h
          simp only [Option.map_some', Option.some.injEq, Prod.mk.injEq] at h
          obtain ⟨h1, -, -⟩ := h
          subst h1
          rcases List.mem_cons.mp hc with rfl | hc0
          · rfl
          · exact ih _ _ _ _ _ hrec c hc0

end IBMQPoll

namespace IBMQPoll

/-- Helper: with `timeout=None` and an oracle that never yields a payload, the
poll loop is still running whatever the fuel. -/
lemma pollLoop_none_timeout_runs_forever {π : Type} (oracle : Nat → PollResponse π)
    (d : String) (wait : Nat) (hor : ∀ n p, oracle n ≠ .ready p) :
    ∀ fuel (elapsed : Int) (attempts : Nat),
      pollLoop oracle d wait none fuel elapsed attempts = none := by
  intro fuel
  induction fuel with
  | zero => intro elapsed attempts; rfl
  | succ n ih =>
    intro elapsed attempts
    rw [pollLoop]
    have hto : timeoutReached none elapsed = false := rfl
    rw [hto]
    cases ho : oracle attempts with
    | ready p => exact absurd ho (hor attempts p)
    | noneResp => simp [ih]
    | exn e => simp [ih]

/-- Helper: with a timeout set and a positive interval, the poll loop exits
once the fuel covers the remaining time. -/
lemma pollLoop_timeout_isSome {π : Type} (oracle : Nat → PollResponse π)
    (d : String) (wait : Nat) (t : Int) (hw : 1 ≤ wait) :
    ∀ fuel (elapsed : Int) (attempts : Nat),
      (t - elapsed).toNat + 1 ≤ fuel →
      (pollLoop oracle d wait (some t) fuel elapsed attempts).isSome := by
  intro fuel
  induction fuel with
  | zero => intro elapsed attempts h; omega
  | succ n ih =>
    intro elapsed attempts h
    rw [pollLoop]
    by_cases hto : timeoutReached (some t) elapsed = true
    · rw [if_pos hto]; rfl
    · rw [if_neg hto]
      have hlt : elapsed < t := by
        simp only [timeoutReached, decide_eq_true_eq] at hto
        omega
      cases ho : oracle attempts with
      | ready p => rfl
      | noneResp =>
        dsimp only
        rw [Option.isSome_map']
        exact ih (elapsed + (wait : Int)) (attempts + 1) (by omega)
      | exn e =>
        dsimp only
        rw [Option.isSome_map']
        exact ih (elapsed + (wait : Int)) (attempts + 1) (by omega)

end IBMQPoll

namespace IBMQPoll

/-- C1: the claim says a poll response that fails to decode makes the loop
fail immediately with `DecodeError`, with no further poll attempts and no
exception silently swallowed.  Evaluating the code at the failing input shows
the opposite: with a decode exception raised by the first result retrieval and
a payload on the second, `run` swallows the exception
(`except Exception: pass`, validation.py lines 136-137), issues a second GET,
and returns successfully — no decode error ever surfaces. -/
theorem run_swallows_decode_exception_and_repolls :
    (IBMQTranspilerService.mk "up" "down"
        (fun n => if n = 0 then .exn "JSONDecodeError: malformed payload"
                  else .ready 5)
        (fun p : Nat => ([p], (), ()))).run 3 (some 100) 10 =
      some ([.submit "up", .get "down", .get "down"], 6, .single 5) := by
  decide

/-- C2: evaluating the poll loop with `wait=1`, `timeout=2` and a remote that
never answers: the loop does raise the timeout error exactly when the elapsed
time reaches the timeout (elapsed 2 ≥ 2, never earlier), but the raised
`UserTimeoutExceededError` carries only the constant message string of
validation.py line 132, whose format placeholder is never filled — the
elapsed duration does not appear in the error, contradicting the last part of
the claim. -/
theorem run_timeout_error_lacks_elapsed_duration :
    (IBMQTranspilerService.mk "up" "down" (fun _ => PollResponse.noneResp)
        (fun p : Nat => ([p], (), ()))).run 1 (some 2) 10 =
      some ([.submit "up", .get "down", .get "down"], 2,
        .timeoutErr "Timeout while waiting circuit trasnpilation \x7b\x7d") := by
  decide

/-- C3: the claim says an HTTP error status on the first poll makes the loop
fail immediately with `RemoteError` and issue zero further poll attempts.
Evaluating the code at the failing input shows the opposite: the HTTP-500
exception raised by the first result retrieval is swallowed by the blanket
`except Exception: pass` and a second GET is issued, after which `run`
returns successfully — no remote error ever surfaces. -/
theorem run_swallows_http_error_and_repolls :
    (IBMQTranspilerService.mk "up" "down"
        (fun n => if n = 0 then
            .exn "RequestsApiError: 500 \x7b\"error\":\"internal\"\x7d"
          else .ready 9)
        (fun p : Nat => ([p], (), ()))).run 2 (some 50) 10 =
      some ([.submit "up", .get "down", .get "down"], 4, .single 9) := by
  decide

/-- C6: with `wait=1` and `timeout=5`, a remote that is pending at elapsed
times 1, 2 and 3 (GET attempts 0, 1, 2) and ready with a valid payload at
elapsed time 4 (GET attempt 3), `run` returns the decoded result at elapsed
time 4 after exactly one submission POST and exactly 4 GET calls. -/
theorem run_scenario_four_polls :
    (IBMQTranspilerService.mk "up" "down"
        (fun n => if n < 3 then .noneResp else .ready 7)
        (fun p : Nat => ([p], (), ()))).run 1 (some 5) 10 =
      some ([.submit "up", .get "down", .get "down", .get "down", .get "down"],
        4, .single 7) := by
  decide

end IBMQPoll

namespace IBMQPoll

/-- C4: every terminating execution of `run` performs exactly one submission
POST, to the upload url, as its very first network call; every subsequent
network call of the poll loop is a GET against the download url — the payload
is never resubmitted. -/
theorem run_single_submission_then_download_polls {π κ ρ η : Type}
    (s : IBMQTranspilerService π κ ρ η) (wait : Nat) (timeout : Option Int)
    (fuel : Nat) (tr : List NetCall) (e : Int) (res : RunResult κ)
    (h : s.run wait timeout fuel = some (tr, e, res)) :
    ∃ rest, tr = NetCall.submit s.upload_url :: rest ∧
      ∀ c ∈ rest, c = NetCall.get s.download_url := by
  unfold IBMQTranspilerService.run at h
  cases hp : pollLoop s.api s.download_url wait timeout fuel 0 0 with
  | none => rw [hp] at h; cases h
  | some r =>
    obtain ⟨tr0, e0, ex⟩ := r
    rw [hp] at h
    cases ex with
    | timedOut msg =>
      simp only [Option.some.injEq, Prod.mk.injEq] at h
      obtain ⟨h1, -, -⟩ := h
      exact ⟨tr0, h1.symm, fun c hc =>
        pollLoop_trace_gets s.api s.download_url wait timeout fuel 0 0
          tr0 e0 _ hp c hc⟩
    | got p =>
      simp only [Option.some.injEq, Prod.mk.injEq] at h
      obtain ⟨h1, -, -⟩ := h
      exact ⟨tr0, h1.symm, fun c hc =>
        pollLoop_trace_gets s.api s.download_url wait timeout fuel 0 0
          tr0 e0 _ hp c hc⟩

/-- Witness for C4 at a concrete input: one poll suffices and the trace is the
submission followed by a single download GET. -/
theorem run_single_submission_then_download_polls_witness :
    ∃ rest, [NetCall.submit "u", NetCall.get "d"] = NetCall.submit "u" :: rest ∧
      ∀ c ∈ rest, c = NetCall.get "d" :=
  run_single_submission_then_download_polls
    (IBMQTranspilerService.mk "u" "d" (fun _ => .ready 1)
      (fun p : Nat => ([p], (), ())))
    1 none 2 [NetCall.submit "u", NetCall.get "d"] 1 (.single 1) (by decide)

/-- C5: for every endpoint pair, submitting and then polling once against a
remote whose first poll response is a well-formed payload yields a ready
outcome whose computation descriptions are exactly the disassembly of that
payload (round-trip law). -/
theorem run_roundtrip_first_poll {π κ ρ η : Type}
    (s : IBMQTranspilerService π κ ρ η) (p : π) (wait : Nat)
    (timeout : Option Int) (fuel : Nat)
    (h0 : s.api 0 = .ready p) (ht : ∀ t, timeout = some t → 0 < t)
    (hf : 1 ≤ fuel) :
    ∃ res, s.run wait timeout fuel =
        some ([.submit s.upload_url, .get s.download_url], (wait : Int), res) ∧
      resultCircuits res = some (s.disassemble p).1 := by
  obtain ⟨m, rfl⟩ : ∃ m, fuel = m + 1 := ⟨fuel - 1, by omega⟩
  exact ⟨unwrap (s.disassemble p).1,
    run_first_ready s p wait timeout m h0 (timeoutReached_zero ht),
    resultCircuits_unwrap _⟩

/-- Witness for C5 at a concrete input whose payload disassembles to two
circuits. -/
theorem run_roundtrip_first_poll_witness :
    ∃ res, (IBMQTranspilerService.mk "u" "d" (fun _ => PollResponse.ready 11)
        (fun p : Nat => ([p, p + 1], (), ()))).run 2 (some 9) 3 =
        some ([.submit "u", .get "d"], 2, res) ∧
      resultCircuits res = some [11, 12] :=
  run_roundtrip_first_poll
    (IBMQTranspilerService.mk "u" "d" (fun _ => PollResponse.ready 11)
      (fun p : Nat => ([p, p + 1], (), ())))
    11 2 (some 9) 3 rfl (by intro t h; injection h with h; omega) (by decide)

end IBMQPoll

namespace IBMQPoll

/-- C7: when `timeout` is `None` and no poll attempt ever yields a payload,
the loop never terminates (it is still running after every finite number of
iterations); when `timeout` is set to `t` and the sleep interval is positive,
the loop terminates under the mocked clock (its outcome is defined once the
fuel covers `t.toNat + 1` iterations). -/
theorem run_termination_dichotomy (π κ ρ η : Type) :
    (∀ (s : IBMQTranspilerService π κ ρ η) (wait fuel : Nat),
      (∀ n p, s.api n ≠ .ready p) → s.run wait none fuel = none) ∧
    (∀ (s : IBMQTranspilerService π κ ρ η) (wait : Nat) (t : Int) (fuel : Nat),
      1 ≤ wait → t.toNat + 1 ≤ fuel → (s.run wait (some t) fuel).isSome) := by
  constructor
  · intro s wait fuel hor
    unfold IBMQTranspilerService.run
    rw [pollLoop_none_timeout_runs_forever s.api s.download_url wait hor fuel 0 0]
  · intro s wait t fuel hw hf
    have h1 := pollLoop_timeout_isSome s.api s.download_url wait t hw fuel 0 0
      (by simpa using hf)
    unfold IBMQTranspilerService.run
    obtain ⟨r, hr⟩ := Option.isSome_iff_exists.mp h1
    rw [hr]
    obtain ⟨tr, e, ex⟩ := r
    cases ex <;> rfl

/-- Witness for C7: a remote that never answers keeps the loop running at fuel
5 with no timeout, and makes the run terminate with `timeout=3`. -/
theorem run_termination_dichotomy_witness :
    (IBMQTranspilerService.mk "u" "d" (fun _ => PollResponse.noneResp)
        (fun p : Nat => ([p], (), ()))).run 1 none 5 = none ∧
    ((IBMQTranspilerService.mk "u" "d" (fun _ => PollResponse.noneResp)
        (fun p : Nat => ([p], (), ()))).run 1 (some 3) 4).isSome :=
  ⟨(run_termination_dichotomy Nat Nat Unit Unit).1
      (IBMQTranspilerService.mk "u" "d" (fun _ => PollResponse.noneResp)
        (fun p : Nat => ([p], (), ()))) 1 5
      (fun n p h => PollResponse.noConfusion h),
    (run_termination_dichotomy Nat Nat Unit Unit).2
      (IBMQTranspilerService.mk "u" "d" (fun _ => PollResponse.noneResp)
        (fun p : Nat => ([p], (), ()))) 1 3 4 (by decide) (by decide)⟩

/-- C8: when the disassembled result of a successful poll holds exactly one
circuit description, `run` returns that single description unwrapped; when it
holds more than one, `run` returns the whole list. -/
theorem run_unwraps_single_circuit {π κ ρ η : Type}
    (s : IBMQTranspilerService π κ ρ η) (p : π) (wait : Nat)
    (timeout : Option Int) (fuel : Nat)
    (h0 : s.api 0 = .ready p) (ht : ∀ t, timeout = some t → 0 < t)
    (hf : 1 ≤ fuel) :
    (∀ c, (s.disassemble p).1 = [c] →
      s.run wait timeout fuel =
        some ([.submit s.upload_url, .get s.download_url], (wait : Int),
          .single c)) ∧
    (1 < (s.disassemble p).1.length →
      s.run wait timeout fuel =
        some ([.submit s.upload_url, .get s.download_url], (wait : Int),
          .multiple (s.disassemble p).1)) := by
  obtain ⟨m, rfl⟩ : ∃ m, fuel = m + 1 := ⟨fuel - 1, by omega⟩
  have hr := run_first_ready s p wait timeout m h0 (timeoutReached_zero ht)
  constructor
  · intro c hc
    rw [hr, hc]
    rfl
  · intro hlen
    rw [hr, unwrap_eq_multiple _ (by omega)]

/-- Witness for C8: a payload disassembling to one circuit is returned
unwrapped, one disassembling to two circuits is returned as the list. -/
theorem run_unwraps_single_circuit_witness :
    (IBMQTranspilerService.mk "u" "d" (fun _ => PollResponse.ready 3)
        (fun p : Nat => ([p], (), ()))).run 2 none 1 =
      some ([.submit "u", .get "d"], 2, .single 3) ∧
    (IBMQTranspilerService.mk "u" "d" (fun _ => PollResponse.ready 3)
        (fun p : Nat => ([p, p], (), ()))).run 2 none 1 =
      some ([.submit "u", .get "d"], 2, .multiple [3, 3]) :=
  ⟨(run_unwraps_single_circuit
      (IBMQTranspilerService.mk "u" "d" (fun _ => PollResponse.ready 3)
        (fun p : Nat => ([p], (), ())))
      3 2 none 1 rfl (fun t h => Option.noConfusion h) (by decide)).1 3 rfl,
    (run_unwraps_single_circuit
      (IBMQTranspilerService.mk "u" "d" (fun _ => PollResponse.ready 3)
        (fun p : Nat => ([p, p], (), ())))
      3 2 none 1 rfl (fun t h => Option.noConfusion h) (by decide)).2 (by decide)⟩

/-- C9: with a timeout that is zero or negative, `run` raises the timeout
error on the very first loop iteration — after the one submission POST, but
before any sleep and before any download GET is issued (the trace holds the
submission only and the elapsed time at the raise is 0). -/
theorem run_nonpositive_timeout_raises_before_poll {π κ ρ η : Type}
    (s : IBMQTranspilerService π κ ρ η) (wait : Nat) (t : Int) (fuel : Nat)
    (ht : t ≤ 0) (hf : 1 ≤ fuel) :
    s.run wait (some t) fuel =
      some ([.submit s.upload_url], 0, .timeoutErr timeoutMessage) := by
  obtain ⟨m, rfl⟩ : ∃ m, fuel = m + 1 := ⟨fuel - 1, by omega⟩
  unfold IBMQTranspilerService.run
  rw [pollLoop]
  have hto : timeoutReached (some t) 0 = true := by
    simp only [timeoutReached, decide_eq_true_eq]
    omega
  rw [if_pos hto]

/-- Witness for C9 at `timeout = 0`. -/
theorem run_nonpositive_timeout_raises_before_poll_witness :
    (IBMQTranspilerService.mk "u" "d" (fun _ => PollResponse.noneResp)
        (fun p : Nat => ([p], (), ()))).run 3 (some 0) 7 =
      some ([.submit "u"], 0, .timeoutErr timeoutMessage) :=
  run_nonpositive_timeout_raises_before_poll
    (IBMQTranspilerService.mk "u" "d" (fun _ => PollResponse.noneResp)
      (fun p : Nat => ([p], (), ())))
    3 0 7 (by decide) (by decide)

end IBMQPoll

namespace Configrc

/-- C10: every call to `store_credentials` that proceeds to write — the
unique id is not already stored, or `overwrite` is true — clears the
previously stored accounts and hands `write_qiskit_rc` a dictionary holding
exactly the one credential being stored; no other account survives. -/
theorem store_credentials_writes_single_account {ι χ : Type} [DecidableEq ι]
    (uid : χ → ι) (stored : List (ι × χ)) (cred : χ) (overwrite : Bool)
    (h : dictContains stored (uid cred) = false ∨ overwrite = true) :
    store_credentials uid stored cred overwrite = some [(uid cred, cred)] := by
  unfold store_credentials
  have hcond : (dictContains stored (uid cred) && !overwrite) = false := by
    rcases h with h | h <;> simp [h]
  rw [hcond]
  simp [dictSet, dictClear, dictContains]

/-- Witness for C10: storing a fresh credential over a file holding another
account leaves exactly the new account. -/
theorem store_credentials_writes_single_account_witness :
    store_credentials (fun c : Nat => c) [(5, 5)] 7 false = some [(7, 7)] :=
  store_credentials_writes_single_account (fun c : Nat => c) [(5, 5)] 7 false
    (Or.inl (by decide))

end Configrc
